import Mathlib

/-!
Shallow embedding of `ov::pass::SDPAToPagedAttention::run_on_model`
(src/core/src/pass/sdpa_to_paged_attention.cpp) together with the graph-surgery
primitives of `ov::Model` that it uses.

Modelling conventions:
* A `Model` carries the ordered Parameter list (`inputs`), the Sink set, the
  Result list and a list of consumer sites (`uses`): each entry `(site, e)`
  records that the internal consumer `site` reads the output of node `e`.
  `replace_node` rewires these sites.
* A model input may be bound either to a true Parameter (`GNode.param`) or to
  some other node (`GNode.other`), mirroring the `dynamic_pointer_cast` checks
  in the source; a failed cast that the source dereferences without a null
  check is modelled as `Option.none` (crash / undefined behaviour), and so is
  `ov::Model::input(name)` when the name does not resolve (it throws).
* The four pattern sub-passes registered on the pass manager live in other
  translation units; they are abstracted as an arbitrary function (`Passes`)
  receiving exactly the mutable context the source shares with them.
* Machine integers are modelled as `Int` with explicit 32-bit wrap-around
  (`wrap32`) at the points where the built expression converts or subtracts
  in `element::i32`.
-/

/-- Element types that occur in the source unit. -/
inductive ElemType where
  | i32
  | i64
  | f32
  | anyOther
deriving DecidableEq, Repr

/-- A partial shape: a list of dimensions, `-1` standing for a dynamic
dimension; the empty list is the scalar shape `PartialShape{}`. -/
abbrev PShape := List Int

/-- A `v0::Parameter` node: its bound tensor names, element type and
(partial) shape.  `setName` in the source binds exactly one name. -/
structure Param where
  names : List String
  et : ElemType
  shape : PShape
deriving DecidableEq, Repr

/-- A node reachable as a model input: either a true Parameter or some other
node (the case in which `dynamic_pointer_cast<v0::Parameter>` yields null). -/
inductive GNode where
  | param : Param → GNode
  | other : Nat → List String → GNode
deriving DecidableEq, Repr

/-- The names bound to an input node. -/
def GNode.names : GNode → List String
  | .param p => p.names
  | .other _ ns => ns

/-- Expression nodes built by the orchestrator (the detached subgraph handed
to the sub-passes: Unsqueeze, ShapeOf, Gather, Convert, Subtract, Constant). -/
inductive Expr where
  | paramE : Param → Expr
  | otherE : Nat → Expr
  | constE : ElemType → PShape → Int → Expr
  | unsqueezeE : Expr → Expr → Expr
  | shapeOfE : Expr → Expr
  | gatherE : Expr → Expr → Expr → Expr
  | convertE : Expr → ElemType → Expr
  | subtractE : Expr → Expr → Expr
deriving DecidableEq, Repr

/-- The view of an input node as an expression (for `replace_node`). -/
def nodeExpr : GNode → Expr
  | .param p => .paramE p
  | .other k _ => .otherE k

/-- An `ov::Model`: ordered Parameter list, Sinks, Results and the consumer
sites of the dataflow graph. -/
structure Model where
  inputs : List GNode
  sinks : List Nat
  results : List Nat
  uses : List (Nat × Expr)
deriving DecidableEq, Repr

/-- Does the node bind the given tensor name? -/
def GNode.hasName (g : GNode) (n : String) : Bool :=
  decide (n ∈ g.names)

/-- `ov::Model::input(name)`: the first model input binding the name
(`none` when the lookup throws). -/
def Model.findInput (m : Model) (n : String) : Option GNode :=
  m.inputs.find? (fun g => g.hasName n)

/-- The `has_parameter` lambda of the source (lines 53-62): some model input
binds the name. -/
def has_parameter (m : Model) (n : String) : Bool :=
  (m.findInput n).isSome

/-- `ov::Model::remove_parameter`: erase the Parameter from the input list. -/
def Model.removeParameter (m : Model) (p : Param) : Model :=
  { m with inputs := m.inputs.filter (fun g => g ≠ GNode.param p) }

/-- `ov::Model::add_parameters`: append Parameters at the end of the list. -/
def Model.addParameters (m : Model) (ps : List Param) : Model :=
  { m with inputs := m.inputs ++ ps.map GNode.param }

/-- `ov::Model::remove_sink`. -/
def Model.removeSink (m : Model) (s : Nat) : Model :=
  { m with sinks := m.sinks.filter (fun x => x ≠ s) }

/-- `ov::Model::remove_result`. -/
def Model.removeResult (m : Model) (r : Nat) : Model :=
  { m with results := m.results.filter (fun x => x ≠ r) }

/-- In-place mutation of a shared node (e.g. `set_partial_shape`): the node
changes under every reference, both in the Parameter list and at consumer
sites. -/
def Model.updateNode (m : Model) (g g' : GNode) : Model :=
  { m with
    inputs := m.inputs.map (fun x => if x = g then g' else x),
    uses := m.uses.map (fun su => if su.2 = nodeExpr g then (su.1, nodeExpr g') else su) }

/-- `ov::replace_node(target, replacement)`: every consumer site reading
`target` is rewired to read `replacement` (the replacement's own input edge is
not a tracked site, so no self-loop arises). -/
def Model.replaceNode (m : Model) (tgt rep : Expr) : Model :=
  { m with uses := m.uses.map (fun su => if su.2 = tgt then (su.1, rep) else su) }

/-- The scalar `max_context_len` Parameter created at line 31:
`element::i32`, `PartialShape{}`. -/
def max_context_len : Param :=
  { names := ["max_context_len"], et := .i32, shape := [] }

/-- The four scheduling-metadata vector Parameters of lines 32-37, in source
order: `context_lens`, `subsequence_begins`, `block_indices`,
`block_indices_begins`, each `element::i32` with shape `{-1}`. -/
def model_remaining_params : List Param :=
  [ { names := ["context_lens"], et := .i32, shape := [-1] },
    { names := ["subsequence_begins"], et := .i32, shape := [-1] },
    { names := ["block_indices"], et := .i32, shape := [-1] },
    { names := ["block_indices_begins"], et := .i32, shape := [-1] } ]

/-- The constant sliding-window flag of line 38 (`i32` scalar `0`). -/
def sliding_window : Expr := .constE .i32 [] 0

/-- The five scheduling-metadata names. -/
def metaNames : List String :=
  ["max_context_len", "context_lens", "subsequence_begins", "block_indices",
   "block_indices_begins"]

/-- The trailing-unit-axis expansion `Unsqueeze(e, Constant(i32, {}, 1))`
built at lines 43-44 and 77-78. -/
def unsqueezeTrailing (e : Expr) : Expr :=
  .unsqueezeE e (.constE .i32 [] 1)

/-- `cur_seq_len` (lines 47-49): `Gather(ShapeOf(unsqueezed_input_ids),
Constant(i64, 1), Constant(i64, 0))`. -/
def cur_seq_len (unsqIds : Expr) : Expr :=
  .gatherE (.shapeOfE unsqIds) (.constE .i64 [] 1) (.constE .i64 [] 0)

/-- `prev_max_seq_len` (lines 50-51): `Subtract(max_context_len,
Convert(cur_seq_len, i32))`. -/
def prev_max_seq_len (unsqIds : Expr) : Expr :=
  .subtractE (.paramE max_context_len) (.convertE (cur_seq_len unsqIds) .i32)

/-- The new `position_ids` Parameter synthesized at line 71:
`element::i64`, `PartialShape{-1}`. -/
def position_ids_new : Param :=
  { names := ["position_ids"], et := .i64, shape := [-1] }

/-- Lines 40-45: look up `input_ids`, downcast to Parameter, relax its shape
to `{-1}`.  A missing name throws and a failed downcast is dereferenced by
`set_partial_shape`, so both are crashes (`none`).  Returns the model and the
relaxed Parameter. -/
def adaptInputIds (m : Model) : Option (Model × Param) :=
  match m.findInput "input_ids" with
  | some (GNode.param p) =>
      some (m.updateNode (GNode.param p) (GNode.param { p with shape := [-1] }),
            { p with shape := [-1] })
  | some (GNode.other _ _) => none
  | none => none

/-- Lines 69-79: if no input binds `position_ids`, synthesize a fresh dynamic
1-D i64 Parameter and append it; otherwise downcast the existing one (a failed
downcast is dereferenced: crash) and relax its shape to `{-1}`.  In both cases
build the trailing-unit-axis Unsqueeze and rewire the consumers to it.
Returns the model and the unsqueezed position-ids expression. -/
def adaptPositionIds (m : Model) : Option (Model × Expr) :=
  if !has_parameter m "position_ids" then
    some ((m.addParameters [position_ids_new]).replaceNode
            (Expr.paramE position_ids_new)
            (unsqueezeTrailing (Expr.paramE position_ids_new)),
          unsqueezeTrailing (Expr.paramE position_ids_new))
  else
    match m.findInput "position_ids" with
    | some (GNode.param p) =>
        some (((m.updateNode (GNode.param p)
                  (GNode.param { p with shape := [-1] })).replaceNode
                 (Expr.paramE { p with shape := [-1] })
                 (unsqueezeTrailing (Expr.paramE { p with shape := [-1] }))),
              unsqueezeTrailing (Expr.paramE { p with shape := [-1] }))
    | _ => none

/-- The mutable context the orchestrator shares with the registered
sub-passes (lines 64-66, 81): the accumulated per-layer KV Parameters, the
Parameters pending removal, the unused Assign list and the layer counter.
The `results_to_remove` vector is deliberately absent: the source never hands
it to any sub-pass. -/
structure PassCtx where
  kv_parameters : List Param
  parameters_to_remove : List Param
  assignes_to_remove : List Nat
  layer_index : Int
deriving DecidableEq, Repr

/-- The context in its initial (empty) state. -/
def initCtx : PassCtx :=
  { kv_parameters := [], parameters_to_remove := [], assignes_to_remove := [],
    layer_index := 0 }

/-- The four registered rewrite sub-passes (lines 83-97), abstracted as one
arbitrary model-and-context transformer.  Arguments: the model, the shared
context, the `prev_max_seq_len` expression handed to
`PrevSequenceLengthPattern` and the unsqueezed position-ids expression handed
to `PositionIDsReplacer`. -/
abbrev Passes := Model → PassCtx → Expr → Expr → Model × PassCtx

/-- A pass pipeline in which no pattern matches (no graph edit, no context
edit). -/
def idPasses : Passes := fun m c _ _ => (m, c)

/-- The stale-Results collection of line 67: declared empty and never
populated by the orchestration. -/
def results_to_remove : List Nat := []

/-- Lines 99-106: if an input binds `beam_idx`, downcast it; remove it on
success, otherwise signal failure (`false`).  Absence of the name is not a
failure. -/
def beamIdxStep (m : Model) : Model × Bool :=
  if has_parameter m "beam_idx" then
    match m.findInput "beam_idx" with
    | some (GNode.param p) => (m.removeParameter p, true)
    | _ => (m, false)
  else (m, true)

/-- Lines 115-133: remove the accumulated Parameters, then every Sink of the
model, then the accumulated stale Results, then append the per-layer KV
Parameters, the four scheduling-metadata vectors and `max_context_len`. -/
def appendStage (ctx : PassCtx) (rtr : List Nat) (m2 : Model) : Model :=
  let m3 := ctx.parameters_to_remove.foldl (fun acc q => acc.removeParameter q) m2
  let m4 := m3.sinks.foldl (fun acc s => acc.removeSink s) m3
  let m5 := rtr.foldl (fun acc r => acc.removeResult r) m4
  ((m5.addParameters ctx.kv_parameters).addParameters
      model_remaining_params).addParameters [max_context_len]

/-- Lines 108-134: the `attention_mask` lookup (throws when absent), its
mandatory downcast (failure `false` when it is no Parameter, removal when it
is), followed by the unconditional removal/append stage. -/
def finalizeAfterBeam (ctx : PassCtx) (rtr : List Nat) (m1 : Model) :
    Option (Model × Bool) :=
  match m1.findInput "attention_mask" with
  | none => none
  | some (GNode.other _ _) => some (m1, false)
  | some (GNode.param p) =>
      some (appendStage ctx rtr (m1.removeParameter p), true)

/-- Lines 99-134: the whole finalization, `beam_idx` handling first. -/
def finalize (ctx : PassCtx) (rtr : List Nat) (m : Model) :
    Option (Model × Bool) :=
  if (beamIdxStep m).2 = false then some (beamIdxStep m)
  else finalizeAfterBeam ctx rtr (beamIdxStep m).1

/-- `run_on_model` (lines 29-135): adapt `input_ids`, insert its trailing-unit
Unsqueeze and rewire, adapt `position_ids`, run the registered sub-passes with
the shared context, then finalize.  `none` models a crash (thrown lookup or
dereferenced null downcast). -/
def runOnModel (passes : Passes) (m0 : Model) : Option (Model × Bool) :=
  Option.bind (adaptInputIds m0) (fun st =>
    Option.bind
      (adaptPositionIds
        (st.1.replaceNode (Expr.paramE st.2) (unsqueezeTrailing (Expr.paramE st.2))))
      (fun st2 =>
        finalize
          (passes st2.1 initCtx
            (prev_max_seq_len (unsqueezeTrailing (Expr.paramE st.2))) st2.2).2
          results_to_remove
          (passes st2.1 initCtx
            (prev_max_seq_len (unsqueezeTrailing (Expr.paramE st.2))) st2.2).1))

/-- Signed 32-bit wrap-around. -/
def wrap32 (i : Int) : Int := (i + 2 ^ 31) % 2 ^ 32 - 2 ^ 31

/-- A runtime value: an integer scalar or a 1-D integer tensor. -/
inductive Val where
  | scalar : Int → Val
  | vec : List Int → Val
deriving DecidableEq, Repr

/-- A runtime environment: the concrete shape bound to each input tensor and
the scalar value fed to each scalar Parameter. -/
structure Env where
  shapeAt : Param → List Int
  valAt : Param → Int

/-- Insert a value at an index of a shape (the effect of Unsqueeze on the
runtime shape). -/
def insertAt : Nat → Int → List Int → List Int
  | 0, v, l => v :: l
  | _ + 1, v, [] => [v]
  | n + 1, v, x :: xs => x :: insertAt n v xs

/-- The runtime shape of an expression (only the forms the orchestrator
builds need shapes). -/
def rtShape (env : Env) : Expr → Option (List Int)
  | .paramE p => some (env.shapeAt p)
  | .unsqueezeE d (.constE _ _ ax) =>
      (rtShape env d).map (fun s => insertAt ax.toNat 1 s)
  | _ => none

/-- Evaluate the detached scalar expressions built by the orchestrator.
`Convert` to `i32` and the (i32) `Subtract` wrap around; `Gather` with an
out-of-range index is undefined (`none`). -/
def evalE (env : Env) : Expr → Option Val
  | .paramE p => some (.scalar (env.valAt p))
  | .constE _ _ v => some (.scalar v)
  | .shapeOfE d => (rtShape env d).map .vec
  | .gatherE d i a =>
      match evalE env d, evalE env i, evalE env a with
      | some (.vec l), some (.scalar idx), some (.scalar ax) =>
          if ax = 0 ∧ 0 ≤ idx ∧ idx.toNat < l.length then
            some (.scalar (l.getD idx.toNat 0))
          else none
      | _, _, _ => none
  | .convertE d t =>
      match evalE env d with
      | some (.scalar v) => some (.scalar (if t = .i32 then wrap32 v else v))
      | _ => none
  | .subtractE a b =>
      match evalE env a, evalE env b with
      | some (.scalar x), some (.scalar y) => some (.scalar (wrap32 (x - y)))
      | _, _ => none
  | _ => none

/-- The axis the original `[batch, sequence]` input layout designates as the
sequence axis; the adapter re-creates it as the trailing unit axis of the
flattened input, and `cur_seq_len` gathers exactly this axis of the shape. -/
def seqAxis : Nat := 1

/-- The runtime shape of the adapted (unsqueezed) input given the runtime
shape of the flattened Parameter. -/
def adaptedShape (s : List Int) : List Int := insertAt seqAxis 1 s

/-- The size of the sequence axis of an adapted runtime shape. -/
def seqAxisSize (s : List Int) : Int := s.getD seqAxis 0

/-- The number of model inputs binding a given name. -/
def countName (l : List GNode) (n : String) : Nat :=
  (l.filter (fun g => g.hasName n)).length

/-- A typical stateful input model: `input_ids`, `attention_mask`, `beam_idx`
Parameters, two Sinks, one Result and one internal consumer of `input_ids`. -/
def pInput : Param := { names := ["input_ids"], et := .i64, shape := [-1, -1] }

/-- The adapted `input_ids` Parameter (shape relaxed to `{-1}`). -/
def pInputA : Param := { names := ["input_ids"], et := .i64, shape := [-1] }

/-- The `attention_mask` Parameter of the example model. -/
def pAttn : Param := { names := ["attention_mask"], et := .i64, shape := [-1, -1] }

/-- The `beam_idx` Parameter of the example model. -/
def pBeam : Param := { names := ["beam_idx"], et := .i32, shape := [-1] }

/-- The example input model. -/
def mEx : Model :=
  { inputs := [.param pInput, .param pAttn, .param pBeam],
    sinks := [5, 6], results := [7], uses := [(100, .paramE pInput)] }

/-- The example model after the `input_ids` adapter. -/
def mExA : Model :=
  { inputs := [.param pInputA, .param pAttn, .param pBeam],
    sinks := [5, 6], results := [7], uses := [(100, .paramE pInputA)] }

/-- The example model after rewiring `input_ids` consumers to the Unsqueeze. -/
def mExB : Model :=
  { inputs := [.param pInputA, .param pAttn, .param pBeam],
    sinks := [5, 6], results := [7],
    uses := [(100, unsqueezeTrailing (.paramE pInputA))] }

/-- The example model after the `position_ids` adapter (fresh Parameter). -/
def mExC : Model :=
  { inputs := [.param pInputA, .param pAttn, .param pBeam, .param position_ids_new],
    sinks := [5, 6], results := [7],
    uses := [(100, unsqueezeTrailing (.paramE pInputA))] }

/-- The example model a successful run produces. -/
def mExFinal : Model :=
  { inputs := [.param pInputA, .param position_ids_new]
      ++ model_remaining_params.map .param ++ [.param max_context_len],
    sinks := [], results := [7],
    uses := [(100, unsqueezeTrailing (.paramE pInputA))] }

/-- A model whose `attention_mask` name is bound to a computed node. -/
def mAttnBad : Model :=
  { inputs := [.param pInput, .other 50 ["attention_mask"], .param pBeam],
    sinks := [5], results := [9], uses := [] }

/-- The state of `mAttnBad` at the failure return (inputs adapted,
`position_ids` synthesized, `beam_idx` removed; nothing appended). -/
def mAttnBad1 : Model :=
  { inputs := [.param pInputA, .other 50 ["attention_mask"], .param position_ids_new],
    sinks := [5], results := [9], uses := [] }

/-- A model whose `input_ids` name is bound to a computed node. -/
def mIdsBad : Model :=
  { inputs := [.other 40 ["input_ids"], .param pAttn],
    sinks := [], results := [], uses := [] }

/-- A model whose `position_ids` name is bound to a computed node. -/
def mPosBad : Model :=
  { inputs := [.param pInput, .other 60 ["position_ids"], .param pAttn],
    sinks := [], results := [], uses := [] }

/-- A model that already has a 2-D `position_ids` Parameter and a consumer
of it. -/
def pPos : Param := { names := ["position_ids"], et := .i64, shape := [-1, -1] }

/-- The relaxed form of `pPos`. -/
def pPosA : Param := { names := ["position_ids"], et := .i64, shape := [-1] }

/-- A model with an existing `position_ids` Parameter. -/
def mPosEx : Model :=
  { inputs := [.param pInput, .param pPos, .param pAttn],
    sinks := [], results := [], uses := [(200, .paramE pPos)] }

/-- The `mAttnBad` model after the `input_ids` adapter. -/
def mAttnBadA : Model :=
  { inputs := [.param pInputA, .other 50 ["attention_mask"], .param pBeam],
    sinks := [5], results := [9], uses := [] }

/-- The `mAttnBad` model after the `position_ids` adapter. -/
def mAttnBadC : Model :=
  { inputs := [.param pInputA, .other 50 ["attention_mask"], .param pBeam,
               .param position_ids_new],
    sinks := [5], results := [9], uses := [] }

/-- The `mPosBad` model after the `input_ids` adapter. -/
def mPosBadA : Model :=
  { inputs := [.param pInputA, .other 60 ["position_ids"], .param pAttn],
    sinks := [], results := [], uses := [] }

/-- A concrete runtime environment: five flattened tokens,
`max_context_len = 10`. -/
def envEx : Env :=
  { shapeAt := fun q => if q = pInputA then [5] else [],
    valAt := fun q => if q = max_context_len then 10 else 0 }

@[simp] theorem removeParameter_sinks (m : Model) (p : Param) :
    (m.removeParameter p).sinks = m.sinks := rfl

@[simp] theorem removeParameter_results (m : Model) (p : Param) :
    (m.removeParameter p).results = m.results := rfl

@[simp] theorem removeParameter_uses (m : Model) (p : Param) :
    (m.removeParameter p).uses = m.uses := rfl

@[simp] theorem removeSink_inputs (m : Model) (s : Nat) :
    (m.removeSink s).inputs = m.inputs := rfl

@[simp] theorem removeSink_results (m : Model) (s : Nat) :
    (m.removeSink s).results = m.results := rfl

@[simp] theorem removeResult_inputs (m : Model) (r : Nat) :
    (m.removeResult r).inputs = m.inputs := rfl

@[simp] theorem removeResult_sinks (m : Model) (r : Nat) :
    (m.removeResult r).sinks = m.sinks := rfl

@[simp] theorem addParameters_sinks (m : Model) (ps : List Param) :
    (m.addParameters ps).sinks = m.sinks := rfl

@[simp] theorem addParameters_results (m : Model) (ps : List Param) :
    (m.addParameters ps).results = m.results := rfl

@[simp] theorem addParameters_inputs (m : Model) (ps : List Param) :
    (m.addParameters ps).inputs = m.inputs ++ ps.map GNode.param := rfl

@[simp] theorem updateNode_sinks (m : Model) (g g' : GNode) :
    (m.updateNode g g').sinks = m.sinks := rfl

@[simp] theorem updateNode_results (m : Model) (g g' : GNode) :
    (m.updateNode g g').results = m.results := rfl

@[simp] theorem replaceNode_inputs (m : Model) (t r : Expr) :
    (m.replaceNode t r).inputs = m.inputs := rfl

@[simp] theorem replaceNode_sinks (m : Model) (t r : Expr) :
    (m.replaceNode t r).sinks = m.sinks := rfl

@[simp] theorem replaceNode_results (m : Model) (t r : Expr) :
    (m.replaceNode t r).results = m.results := rfl

@[simp] theorem replaceNode_findInput (m : Model) (t r : Expr) (n : String) :
    (m.replaceNode t r).findInput n = m.findInput n := rfl

theorem mem_inputs_removeParameter {g : GNode} {m : Model} {p : Param}
    (h : g ∈ (m.removeParameter p).inputs) : g ∈ m.inputs := by
  simp only [Model.removeParameter, List.mem_filter] at h
  exact h.1

theorem not_mem_removeParameter_self (m : Model) (p : Param) :
    GNode.param p ∉ (m.removeParameter p).inputs := by
  intro h
  simp [Model.removeParameter, List.mem_filter] at h

theorem not_mem_removeParameter {g : GNode} {m : Model} {p : Param}
    (h : g ∉ m.inputs) : g ∉ (m.removeParameter p).inputs :=
  fun hm => h (mem_inputs_removeParameter hm)

theorem foldl_removeParameter_sinks (l : List Param) : ∀ m : Model,
    (l.foldl (fun acc q => acc.removeParameter q) m).sinks = m.sinks := by
  induction l with
  | nil => intro m; rfl
  | cons q t ih => intro m; exact ih (m.removeParameter q)

theorem foldl_removeParameter_results (l : List Param) : ∀ m : Model,
    (l.foldl (fun acc q => acc.removeParameter q) m).results = m.results := by
  induction l with
  | nil => intro m; rfl
  | cons q t ih => intro m; exact ih (m.removeParameter q)

theorem foldl_removeParameter_mem_inputs (l : List Param) : ∀ (m : Model) (g : GNode),
    g ∈ (l.foldl (fun acc q => acc.removeParameter q) m).inputs → g ∈ m.inputs := by
  induction l with
  | nil => intro m g h; exact h
  | cons q t ih =>
      intro m g h
      exact mem_inputs_removeParameter (ih (m.removeParameter q) g h)

theorem foldl_removeSink_inputs (l : List Nat) : ∀ m : Model,
    (l.foldl (fun acc s => acc.removeSink s) m).inputs = m.inputs := by
  induction l with
  | nil => intro m; rfl
  | cons s t ih => intro m; exact ih (m.removeSink s)

theorem foldl_removeSink_results (l : List Nat) : ∀ m : Model,
    (l.foldl (fun acc s => acc.removeSink s) m).results = m.results := by
  induction l with
  | nil => intro m; rfl
  | cons s t ih => intro m; exact ih (m.removeSink s)

theorem foldl_removeSink_sinks (l : List Nat) : ∀ m : Model,
    (l.foldl (fun acc s => acc.removeSink s) m).sinks
      = l.foldl (fun acc s => acc.filter (fun x => x ≠ s)) m.sinks := by
  induction l with
  | nil => intro m; rfl
  | cons s t ih => intro m; exact ih (m.removeSink s)

theorem foldl_filter_ne_eq_nil : ∀ l acc : List Nat, (∀ x ∈ acc, x ∈ l) →
    l.foldl (fun a s => a.filter (fun x => x ≠ s)) acc = [] := by
  intro l
  induction l with
  | nil =>
      intro acc h
      exact List.eq_nil_iff_forall_not_mem.mpr (fun x hx => by simpa using h x hx)
  | cons s t ih =>
      intro acc h
      refine ih (acc.filter (fun x => x ≠ s)) ?_
      intro x hx
      have hx' := List.mem_filter.mp hx
      have hmem := h x hx'.1
      have hne : x ≠ s := by simpa using hx'.2
      rcases List.mem_cons.mp hmem with h1 | h1
      · exact absurd h1 hne
      · exact h1

theorem sinks_removal_clears (m : Model) :
    ((m.sinks).foldl (fun acc s => acc.removeSink s) m).sinks = [] := by
  rw [foldl_removeSink_sinks]
  exact foldl_filter_ne_eq_nil m.sinks m.sinks (fun x hx => hx)

theorem foldl_removeResult_inputs (l : List Nat) : ∀ m : Model,
    (l.foldl (fun acc r => acc.removeResult r) m).inputs = m.inputs := by
  induction l with
  | nil => intro m; rfl
  | cons r t ih => intro m; exact ih (m.removeResult r)

theorem foldl_removeResult_sinks (l : List Nat) : ∀ m : Model,
    (l.foldl (fun acc r => acc.removeResult r) m).sinks = m.sinks := by
  induction l with
  | nil => intro m; rfl
  | cons r t ih => intro m; exact ih (m.removeResult r)

theorem appendStage_inputs (ctx : PassCtx) (rtr : List Nat) (m2 : Model) :
    (appendStage ctx rtr m2).inputs
      = (ctx.parameters_to_remove.foldl (fun acc q => acc.removeParameter q) m2).inputs
        ++ ctx.kv_parameters.map GNode.param
        ++ model_remaining_params.map GNode.param
        ++ [GNode.param max_context_len] := by
  simp [appendStage, foldl_removeResult_inputs, foldl_removeSink_inputs]

theorem appendStage_sinks (ctx : PassCtx) (rtr : List Nat) (m2 : Model) :
    (appendStage ctx rtr m2).sinks = [] := by
  simp [appendStage, foldl_removeResult_sinks, sinks_removal_clears]

theorem appendStage_results_nil (ctx : PassCtx) (m2 : Model) :
    (appendStage ctx [] m2).results = m2.results := by
  simp [appendStage, foldl_removeSink_results, foldl_removeParameter_results]

theorem not_mem_appendStage {p : Param} (ctx : PassCtx) (rtr : List Nat) (m2 : Model)
    (h2 : GNode.param p ∉ m2.inputs) (hkv : p ∉ ctx.kv_parameters)
    (hrem : p ∉ model_remaining_params) (hmax : p ≠ max_context_len) :
    GNode.param p ∉ (appendStage ctx rtr m2).inputs := by
  intro h
  rw [appendStage_inputs] at h
  simp only [List.mem_append, List.mem_map, List.mem_singleton] at h
  rcases h with ((h | h) | h) | h
  · exact h2 (foldl_removeParameter_mem_inputs _ _ _ h)
  · rcases h with ⟨q, hq, he⟩
    cases GNode.param.inj he
    exact hkv hq
  · rcases h with ⟨q, hq, he⟩
    cases GNode.param.inj he
    exact hrem hq
  · cases GNode.param.inj h
    exact hmax rfl

theorem beamIdxStep_param {m : Model} {p : Param}
    (hf : m.findInput "beam_idx" = some (GNode.param p)) :
    beamIdxStep m = (m.removeParameter p, true) := by
  unfold beamIdxStep has_parameter
  rw [hf]
  rfl

theorem beamIdxStep_other {m : Model} {k : Nat} {ns : List String}
    (hf : m.findInput "beam_idx" = some (GNode.other k ns)) :
    beamIdxStep m = (m, false) := by
  unfold beamIdxStep has_parameter
  rw [hf]
  rfl

theorem beamIdxStep_none {m : Model}
    (hf : m.findInput "beam_idx" = none) :
    beamIdxStep m = (m, true) := by
  unfold beamIdxStep has_parameter
  rw [hf]
  rfl

theorem beamIdxStep_mem_inputs {m : Model} {g : GNode}
    (h : g ∈ (beamIdxStep m).1.inputs) : g ∈ m.inputs := by
  rcases hf : m.findInput "beam_idx" with _ | g'
  · rw [beamIdxStep_none hf] at h; exact h
  · cases g' with
    | param p => rw [beamIdxStep_param hf] at h; exact mem_inputs_removeParameter h
    | other k ns => rw [beamIdxStep_other hf] at h; exact h

theorem beamIdxStep_sinks (m : Model) : (beamIdxStep m).1.sinks = m.sinks := by
  rcases hf : m.findInput "beam_idx" with _ | g'
  · rw [beamIdxStep_none hf]
  · cases g' with
    | param p => rw [beamIdxStep_param hf]; rfl
    | other k ns => rw [beamIdxStep_other hf]

theorem beamIdxStep_results (m : Model) : (beamIdxStep m).1.results = m.results := by
  rcases hf : m.findInput "beam_idx" with _ | g'
  · rw [beamIdxStep_none hf]
  · cases g' with
    | param p => rw [beamIdxStep_param hf]; rfl
    | other k ns => rw [beamIdxStep_other hf]

theorem finalize_beam_false {ctx : PassCtx} {rtr : List Nat} {m m1 : Model}
    (hb : beamIdxStep m = (m1, false)) :
    finalize ctx rtr m = some (m1, false) := by
  unfold finalize
  rw [hb]
  rfl

theorem finalize_beam_true {ctx : PassCtx} {rtr : List Nat} {m m1 : Model}
    (hb : beamIdxStep m = (m1, true)) :
    finalize ctx rtr m = finalizeAfterBeam ctx rtr m1 := by
  unfold finalize
  rw [hb]
  simp

theorem finalizeAfterBeam_none {ctx : PassCtx} {rtr : List Nat} {m1 : Model}
    (hf : m1.findInput "attention_mask" = none) :
    finalizeAfterBeam ctx rtr m1 = none := by
  unfold finalizeAfterBeam
  rw [hf]

theorem finalizeAfterBeam_other {ctx : PassCtx} {rtr : List Nat} {m1 : Model}
    {k : Nat} {ns : List String}
    (hf : m1.findInput "attention_mask" = some (GNode.other k ns)) :
    finalizeAfterBeam ctx rtr m1 = some (m1, false) := by
  unfold finalizeAfterBeam
  rw [hf]

theorem finalizeAfterBeam_param {ctx : PassCtx} {rtr : List Nat} {m1 : Model}
    {p : Param}
    (hf : m1.findInput "attention_mask" = some (GNode.param p)) :
    finalizeAfterBeam ctx rtr m1
      = some (appendStage ctx rtr (m1.removeParameter p), true) := by
  unfold finalizeAfterBeam
  rw [hf]

theorem adaptInputIds_param {m : Model} {p : Param}
    (hf : m.findInput "input_ids" = some (GNode.param p)) :
    adaptInputIds m
      = some (m.updateNode (GNode.param p) (GNode.param { p with shape := [-1] }),
              { p with shape := [-1] }) := by
  unfold adaptInputIds
  rw [hf]

theorem adaptInputIds_other {m : Model} {k : Nat} {ns : List String}
    (hf : m.findInput "input_ids" = some (GNode.other k ns)) :
    adaptInputIds m = none := by
  unfold adaptInputIds
  rw [hf]

theorem adaptInputIds_noname {m : Model}
    (hf : m.findInput "input_ids" = none) :
    adaptInputIds m = none := by
  unfold adaptInputIds
  rw [hf]

theorem adaptPositionIds_fresh {m : Model}
    (hf : m.findInput "position_ids" = none) :
    adaptPositionIds m
      = some ((m.addParameters [position_ids_new]).replaceNode
                (Expr.paramE position_ids_new)
                (unsqueezeTrailing (Expr.paramE position_ids_new)),
              unsqueezeTrailing (Expr.paramE position_ids_new)) := by
  unfold adaptPositionIds has_parameter
  rw [hf]
  rfl

theorem adaptPositionIds_param {m : Model} {p : Param}
    (hf : m.findInput "position_ids" = some (GNode.param p)) :
    adaptPositionIds m
      = some (((m.updateNode (GNode.param p)
                  (GNode.param { p with shape := [-1] })).replaceNode
                 (Expr.paramE { p with shape := [-1] })
                 (unsqueezeTrailing (Expr.paramE { p with shape := [-1] }))),
              unsqueezeTrailing (Expr.paramE { p with shape := [-1] })) := by
  unfold adaptPositionIds has_parameter
  rw [hf]
  rfl

theorem adaptPositionIds_other {m : Model} {k : Nat} {ns : List String}
    (hf : m.findInput "position_ids" = some (GNode.other k ns)) :
    adaptPositionIds m = none := by
  unfold adaptPositionIds has_parameter
  rw [hf]
  rfl

theorem runOnModel_eq_finalize (passes : Passes) {m0 mA mC : Model}
    {pIds : Param} {e : Expr}
    (h1 : adaptInputIds m0 = some (mA, pIds))
    (h3 : adaptPositionIds (mA.replaceNode (Expr.paramE pIds)
            (unsqueezeTrailing (Expr.paramE pIds))) = some (mC, e)) :
    runOnModel passes m0
      = finalize
          (passes mC initCtx
            (prev_max_seq_len (unsqueezeTrailing (Expr.paramE pIds))) e).2
          results_to_remove
          (passes mC initCtx
            (prev_max_seq_len (unsqueezeTrailing (Expr.paramE pIds))) e).1 := by
  unfold runOnModel
  rw [h1, Option.some_bind]
  dsimp only
  rw [h3, Option.some_bind]

theorem runOnModel_eq_finalize' (passes : Passes) {m0 mA mC mD : Model}
    {pIds : Param} {e : Expr} {ctx : PassCtx}
    (h1 : adaptInputIds m0 = some (mA, pIds))
    (h3 : adaptPositionIds (mA.replaceNode (Expr.paramE pIds)
            (unsqueezeTrailing (Expr.paramE pIds))) = some (mC, e))
    (h4 : passes mC initCtx
            (prev_max_seq_len (unsqueezeTrailing (Expr.paramE pIds))) e = (mD, ctx)) :
    runOnModel passes m0 = finalize ctx results_to_remove mD := by
  rw [runOnModel_eq_finalize passes h1 h3, h4]

theorem runOnModel_none_of_adapt (passes : Passes) {m0 : Model}
    (h1 : adaptInputIds m0 = none) :
    runOnModel passes m0 = none := by
  unfold runOnModel
  rw [h1, Option.none_bind]

theorem runOnModel_none_of_pos (passes : Passes) {m0 mA : Model} {pIds : Param}
    (h1 : adaptInputIds m0 = some (mA, pIds))
    (h3 : adaptPositionIds (mA.replaceNode (Expr.paramE pIds)
            (unsqueezeTrailing (Expr.paramE pIds))) = none) :
    runOnModel passes m0 = none := by
  unfold runOnModel
  rw [h1, Option.some_bind]
  dsimp only
  rw [h3, Option.none_bind]

theorem finalize_some_true {ctx : PassCtx} {rtr : List Nat} {m mf : Model}
    (h : finalize ctx rtr m = some (mf, true)) :
    ∃ p, (beamIdxStep m).2 = true
      ∧ (beamIdxStep m).1.findInput "attention_mask" = some (GNode.param p)
      ∧ mf = appendStage ctx rtr ((beamIdxStep m).1.removeParameter p) := by
  rcases hb : beamIdxStep m with ⟨m1, b⟩
  cases b with
  | false =>
      rw [finalize_beam_false hb] at h
      simp at h
  | true =>
      rw [finalize_beam_true hb] at h
      rcases hf : m1.findInput "attention_mask" with _ | g
      · rw [finalizeAfterBeam_none hf] at h
        cases h
      · cases g with
        | param p =>
            rw [finalizeAfterBeam_param hf] at h
            injection Option.some.inj h with h1 h2
            exact ⟨p, rfl, rfl, h1.symm⟩
        | other k ns =>
            rw [finalizeAfterBeam_other hf] at h
            simp at h

theorem finalize_some_false {ctx : PassCtx} {rtr : List Nat} {m mf : Model}
    (h : finalize ctx rtr m = some (mf, false)) :
    mf = (beamIdxStep m).1 := by
  rcases hb : beamIdxStep m with ⟨m1, b⟩
  cases b with
  | false =>
      rw [finalize_beam_false hb] at h
      injection Option.some.inj h with h1 h2
      exact h1.symm
  | true =>
      rw [finalize_beam_true hb] at h
      rcases hf : m1.findInput "attention_mask" with _ | g
      · rw [finalizeAfterBeam_none hf] at h
        cases h
      · cases g with
        | param p =>
            rw [finalizeAfterBeam_param hf] at h
            simp at h
        | other k ns =>
            rw [finalizeAfterBeam_other hf] at h
            injection Option.some.inj h with h1 h2
            exact h1.symm

theorem adaptInputIds_results {m0 mA : Model} {p : Param}
    (h : adaptInputIds m0 = some (mA, p)) : mA.results = m0.results := by
  rcases hf : m0.findInput "input_ids" with _ | g
  · rw [adaptInputIds_noname hf] at h
    cases h
  · cases g with
    | param q =>
        rw [adaptInputIds_param hf] at h
        injection Option.some.inj h with h1 h2
        rw [← h1]
        rfl
    | other k ns =>
        rw [adaptInputIds_other hf] at h
        cases h

theorem adaptPositionIds_results {m m' : Model} {e : Expr}
    (h : adaptPositionIds m = some (m', e)) : m'.results = m.results := by
  rcases hf : m.findInput "position_ids" with _ | g
  · rw [adaptPositionIds_fresh hf] at h
    injection Option.some.inj h with h1 h2
    rw [← h1]
    rfl
  · cases g with
    | param q =>
        rw [adaptPositionIds_param hf] at h
        injection Option.some.inj h with h1 h2
        rw [← h1]
        rfl
    | other k ns =>
        rw [adaptPositionIds_other hf] at h
        cases h

theorem finalize_results {ctx : PassCtx} {m mf : Model} {b : Bool}
    (h : finalize ctx results_to_remove m = some (mf, b)) :
    mf.results = m.results := by
  cases b with
  | false =>
      rw [finalize_some_false h]
      exact beamIdxStep_results m
  | true =>
      rcases finalize_some_true h with ⟨p, _, _, hmf⟩
      rw [hmf]
      have h1 : (appendStage ctx results_to_remove
          ((beamIdxStep m).1.removeParameter p)).results
          = ((beamIdxStep m).1.removeParameter p).results :=
        appendStage_results_nil ctx _
      rw [h1, removeParameter_results]
      exact beamIdxStep_results m

theorem countName_append (l1 l2 : List GNode) (n : String) :
    countName (l1 ++ l2) n = countName l1 n + countName l2 n := by
  simp [countName, List.filter_append]

theorem countName_eq_zero {l : List GNode} {n : String}
    (h : ∀ g ∈ l, ¬ n ∈ GNode.names g) : countName l n = 0 := by
  simp only [countName, List.length_eq_zero, List.filter_eq_nil_iff]
  intro g hg
  simp [GNode.hasName, h g hg]

theorem wrap32_eq_self {i : Int} (h1 : -(2 ^ 31) ≤ i) (h2 : i < 2 ^ 31) :
    wrap32 i = i := by
  unfold wrap32
  have h0 : (0 : Int) ≤ i + 2 ^ 31 := by linarith
  have hp : (2 : Int) ^ 32 = 2 ^ 31 + 2 ^ 31 := by norm_num
  have hlt : i + 2 ^ 31 < 2 ^ 32 := by rw [hp]; linarith
  rw [Int.emod_eq_of_lt h0 hlt]
  ring

/-- C2: for every run that returns success, zero Sinks remain in the graph:
the finalizer removes every remaining Sink unconditionally, for an arbitrary
sub-pass pipeline (independent of whether any sub-pass tracked its consumer
chain). -/
theorem run_success_sinks_empty (passes : Passes) (m0 mf : Model)
    (h : runOnModel passes m0 = some (mf, true)) : mf.sinks = [] := by
  rcases hA : adaptInputIds m0 with _ | st
  · rw [runOnModel_none_of_adapt passes hA] at h
    cases h
  · rcases st with ⟨mA, pIds⟩
    rcases hP : adaptPositionIds (mA.replaceNode (Expr.paramE pIds)
        (unsqueezeTrailing (Expr.paramE pIds))) with _ | st2
    · rw [runOnModel_none_of_pos passes hA hP] at h
      cases h
    · rcases st2 with ⟨mC, e⟩
      rcases hPs : passes mC initCtx
          (prev_max_seq_len (unsqueezeTrailing (Expr.paramE pIds))) e with ⟨mD, ctx⟩
      rw [runOnModel_eq_finalize' passes hA hP hPs] at h
      rcases finalize_some_true h with ⟨p, _, _, hmf⟩
      rw [hmf, appendStage_sinks]

/-- Witness for the C2 theorem at a concrete model and pipeline. -/
theorem run_success_sinks_empty_witness : mExFinal.sinks = [] :=
  run_success_sinks_empty idPasses mEx mExFinal (by decide)

/-- C3: on every successful run the finalizer appends, at the end of the
Parameter list and in this exact order: the accumulated per-layer KV
Parameters (in accumulation = layer order), the four scheduling-metadata
vectors `context_lens`, `subsequence_begins`, `block_indices`,
`block_indices_begins`, then the scalar `max_context_len` last. -/
theorem run_success_append_order (passes : Passes) (m0 mA mC mD : Model)
    (pIds : Param) (e : Expr) (ctx : PassCtx) (mf : Model)
    (h1 : adaptInputIds m0 = some (mA, pIds))
    (h3 : adaptPositionIds (mA.replaceNode (Expr.paramE pIds)
            (unsqueezeTrailing (Expr.paramE pIds))) = some (mC, e))
    (h4 : passes mC initCtx
            (prev_max_seq_len (unsqueezeTrailing (Expr.paramE pIds))) e = (mD, ctx))
    (h : runOnModel passes m0 = some (mf, true)) :
    ∃ pre, mf.inputs = pre ++ ctx.kv_parameters.map GNode.param
        ++ model_remaining_params.map GNode.param
        ++ [GNode.param max_context_len] := by
  rw [runOnModel_eq_finalize' passes h1 h3 h4] at h
  rcases finalize_some_true h with ⟨p, _, _, hmf⟩
  exact ⟨_, by rw [hmf, appendStage_inputs]⟩

/-- Witness for the C3 theorem at a concrete model and pipeline. -/
theorem run_success_append_order_witness :
    ∃ pre, mExFinal.inputs = pre ++ initCtx.kv_parameters.map GNode.param
        ++ model_remaining_params.map GNode.param
        ++ [GNode.param max_context_len] :=
  run_success_append_order idPasses mEx mExA mExC mExC pInputA
    (unsqueezeTrailing (Expr.paramE position_ids_new)) initCtx mExFinal
    (by decide) (by decide) rfl (by decide)

/-- C4: the `prev_max_seq_len` expression the orchestrator builds and hands
to the previous-sequence-length rewriting pass evaluates, under any runtime
binding of the adapted input and of `max_context_len`, to `max_context_len`
minus the size of the sequence axis of the adapted (unsqueezed) `input_ids`
input (the axis the `[batch, sequence]` layout designates as the sequence
axis, re-created by the unsqueeze as the trailing unit axis). -/
theorem prev_max_seq_len_value (env : Env) (p : Param) (n m : Int)
    (hs : env.shapeAt p = [n])
    (hm : env.valAt max_context_len = m)
    (hlo : -(2 ^ 31) ≤ m - seqAxisSize (adaptedShape [n]))
    (hhi : m - seqAxisSize (adaptedShape [n]) < 2 ^ 31) :
    evalE env (prev_max_seq_len (unsqueezeTrailing (Expr.paramE p)))
      = some (Val.scalar (m - seqAxisSize (adaptedShape [n]))) := by
  have hshape : rtShape env (unsqueezeTrailing (Expr.paramE p)) = some [n, 1] := by
    simp [unsqueezeTrailing, rtShape, hs, insertAt]
  have hseq : seqAxisSize (adaptedShape [n]) = 1 := by
    simp [seqAxisSize, adaptedShape, seqAxis, insertAt]
  have hw1 : wrap32 1 = 1 := wrap32_eq_self (by norm_num) (by norm_num)
  have hms : wrap32 (m - 1) = m - 1 := by
    rw [hseq] at hlo hhi
    exact wrap32_eq_self hlo hhi
  rw [hseq]
  norm_num [prev_max_seq_len, cur_seq_len, evalE, hm, hshape, hw1, hms, List.getD]

/-- Witness for the C4 theorem at a concrete environment. -/
theorem prev_max_seq_len_value_witness :
    evalE envEx (prev_max_seq_len (unsqueezeTrailing (Expr.paramE pInputA)))
      = some (Val.scalar (10 - seqAxisSize (adaptedShape [5]))) :=
  prev_max_seq_len_value envEx pInputA 5 10 rfl rfl (by decide) (by decide)

/-- C9: the stale-Results collection is never populated by the orchestration
(the source declares it and iterates it but hands it to no sub-pass), so for
any sub-pass pipeline that leaves the Result list alone, `run_on_model`
removes no Result on any returning path, success or failure. -/
theorem run_results_unchanged (passes : Passes) (m0 mf : Model) (b : Bool)
    (hp : ∀ m c eprev epos, ((passes m c eprev epos).1).results = m.results)
    (h : runOnModel passes m0 = some (mf, b)) : mf.results = m0.results := by
  rcases hA : adaptInputIds m0 with _ | st
  · rw [runOnModel_none_of_adapt passes hA] at h
    cases h
  · rcases st with ⟨mA, pIds⟩
    rcases hP : adaptPositionIds (mA.replaceNode (Expr.paramE pIds)
        (unsqueezeTrailing (Expr.paramE pIds))) with _ | st2
    · rw [runOnModel_none_of_pos passes hA hP] at h
      cases h
    · rcases st2 with ⟨mC, e⟩
      rcases hPs : passes mC initCtx
          (prev_max_seq_len (unsqueezeTrailing (Expr.paramE pIds))) e with ⟨mD, ctx⟩
      rw [runOnModel_eq_finalize' passes hA hP hPs] at h
      have h5 := finalize_results h
      have h6 : mD.results = mC.results := by
        have hx := hp mC initCtx
          (prev_max_seq_len (unsqueezeTrailing (Expr.paramE pIds))) e
        rwa [hPs] at hx
      have h7 := adaptPositionIds_results hP
      have h8 := adaptInputIds_results hA
      rw [h5, h6, h7, replaceNode_results, h8]

/-- Witness for the C9 theorem at a concrete model and pipeline. -/
theorem run_results_unchanged_witness : mExFinal.results = mEx.results :=
  run_results_unchanged idPasses mEx mExFinal true (fun _ _ _ _ => rfl) (by decide)

/-- C1: at the mandatory `attention_mask` check, a name bound to a
non-Parameter node makes `run_on_model` return failure (`false`) with the
model exactly as it stood at the check — in particular the final
Parameter-list append step (per-layer KV Parameters, the four
scheduling-metadata vectors, `max_context_len`) is not performed; a name
bound to a true Parameter has that Parameter removed from the Parameter
list (provided the sub-pass context does not re-introduce that very
Parameter). -/
theorem attention_mask_gate (passes : Passes) (m0 mA mC mD m1 : Model)
    (pIds : Param) (e : Expr) (ctx : PassCtx)
    (h1 : adaptInputIds m0 = some (mA, pIds))
    (h3 : adaptPositionIds (mA.replaceNode (Expr.paramE pIds)
            (unsqueezeTrailing (Expr.paramE pIds))) = some (mC, e))
    (h4 : passes mC initCtx
            (prev_max_seq_len (unsqueezeTrailing (Expr.paramE pIds))) e = (mD, ctx))
    (h5 : beamIdxStep mD = (m1, true)) :
    (∀ k ns, m1.findInput "attention_mask" = some (GNode.other k ns) →
        runOnModel passes m0 = some (m1, false)) ∧
    (∀ p, m1.findInput "attention_mask" = some (GNode.param p) →
        p ∉ ctx.kv_parameters → p ∉ model_remaining_params →
        p ≠ max_context_len →
        ∃ mf, runOnModel passes m0 = some (mf, true)
          ∧ GNode.param p ∉ mf.inputs) := by
  constructor
  · intro k ns hf
    rw [runOnModel_eq_finalize' passes h1 h3 h4, finalize_beam_true h5,
        finalizeAfterBeam_other hf]
  · intro p hf hkv hrem hmax
    rw [runOnModel_eq_finalize' passes h1 h3 h4, finalize_beam_true h5,
        finalizeAfterBeam_param hf]
    exact ⟨_, rfl,
      not_mem_appendStage ctx results_to_remove _
        (not_mem_removeParameter_self m1 p) hkv hrem hmax⟩

/-- Witness for the C1 theorem: a computed `attention_mask` node makes the
run return failure with the model unchanged from the check point. -/
theorem attention_mask_gate_witness :
    runOnModel idPasses mAttnBad = some (mAttnBad1, false) :=
  (attention_mask_gate idPasses mAttnBad mAttnBadA mAttnBadC mAttnBadC mAttnBad1
      pInputA (unsqueezeTrailing (Expr.paramE position_ids_new)) initCtx
      (by decide) (by decide) rfl (by decide)).1 50 ["attention_mask"] (by decide)

/-- C5 counterexample: with `input_ids` bound to a computed node the
transformation does not return a boolean failure signal — the run crashes
(the null downcast handle is dereferenced; modelled `none`). -/
theorem input_ids_nonparam_counterexample :
    runOnModel idPasses mIdsBad = none := by decide

/-- C5 (amended): if the `input_ids` lookup does not resolve to a Parameter
node, the transformation does not fail with a boolean signal: the null
Parameter handle is immediately dereferenced by the shape-relaxation call, so
the run crashes (modelled `none`); `input_ids` resolving to a true Parameter
is a totality precondition. -/
theorem input_ids_nonparam_crashes (passes : Passes) (m0 : Model)
    (k : Nat) (ns : List String)
    (hf : m0.findInput "input_ids" = some (GNode.other k ns)) :
    runOnModel passes m0 = none :=
  runOnModel_none_of_adapt passes (adaptInputIds_other hf)

/-- Witness for the amended C5 theorem. -/
theorem input_ids_nonparam_crashes_witness :
    runOnModel idPasses mIdsBad = none :=
  input_ids_nonparam_crashes idPasses mIdsBad 40 ["input_ids"] (by decide)

/-- C6: position-ids adaptation: when no input binds `position_ids`, a new
dynamic 1-D 64-bit-integer Parameter with that name is created and appended
directly to the Parameter list; when one exists as a Parameter, its shape is
relaxed to dynamic rank-1 instead of creating a new one (the Parameter list
is mapped in place); in both cases the trailing-unit-axis expansion node is
built and every consumer site of the original tensor is rewired to it. -/
theorem position_ids_adapter (m : Model) :
    (m.findInput "position_ids" = none →
      ∃ m', adaptPositionIds m
            = some (m', unsqueezeTrailing (Expr.paramE position_ids_new))
        ∧ m'.inputs = m.inputs ++ [GNode.param position_ids_new]
        ∧ position_ids_new.et = ElemType.i64
        ∧ position_ids_new.shape = [-1]
        ∧ position_ids_new.names = ["position_ids"]
        ∧ (∀ site, (site, Expr.paramE position_ids_new) ∈ m.uses →
            (site, unsqueezeTrailing (Expr.paramE position_ids_new)) ∈ m'.uses)) ∧
    (∀ p, m.findInput "position_ids" = some (GNode.param p) →
      ∃ m', adaptPositionIds m
            = some (m', unsqueezeTrailing (Expr.paramE { p with shape := [-1] }))
        ∧ m'.inputs = m.inputs.map (fun g =>
            if g = GNode.param p then GNode.param { p with shape := [-1] } else g)
        ∧ (∀ site, (site, Expr.paramE p) ∈ m.uses →
            (site, unsqueezeTrailing (Expr.paramE { p with shape := [-1] }))
              ∈ m'.uses)) := by
  constructor
  · intro hf
    refine ⟨_, adaptPositionIds_fresh hf, by simp, rfl, rfl, rfl, ?_⟩
    intro site hmem
    have hfx : (fun su : Nat × Expr =>
        if su.2 = Expr.paramE position_ids_new then
          (su.1, unsqueezeTrailing (Expr.paramE position_ids_new))
        else su) (site, Expr.paramE position_ids_new)
        = (site, unsqueezeTrailing (Expr.paramE position_ids_new)) := by simp
    rw [← hfx]
    exact List.mem_map_of_mem _ hmem
  · intro p hf
    refine ⟨_, adaptPositionIds_param hf, rfl, ?_⟩
    intro site hmem
    have h1x : (fun su : Nat × Expr =>
        if su.2 = nodeExpr (GNode.param p) then
          (su.1, nodeExpr (GNode.param { p with shape := [-1] }))
        else su) (site, Expr.paramE p)
        = (site, Expr.paramE { p with shape := [-1] }) := by simp [nodeExpr]
    have hm1 : (site, Expr.paramE { p with shape := [-1] })
        ∈ (m.updateNode (GNode.param p)
            (GNode.param { p with shape := [-1] })).uses := by
      rw [← h1x]
      exact List.mem_map_of_mem _ hmem
    have h2x : (fun su : Nat × Expr =>
        if su.2 = Expr.paramE { p with shape := [-1] } then
          (su.1, unsqueezeTrailing (Expr.paramE { p with shape := [-1] }))
        else su) (site, Expr.paramE { p with shape := [-1] })
        = (site, unsqueezeTrailing (Expr.paramE { p with shape := [-1] })) := by
      simp
    rw [← h2x]
    exact List.mem_map_of_mem _ hm1

/-- Witness for the C6 theorem: the existing 2-D `position_ids` Parameter of
a concrete model is relaxed and its consumer site is rewired to the
Unsqueeze. -/
theorem position_ids_adapter_witness :
    ∃ m', adaptPositionIds mPosEx
          = some (m', unsqueezeTrailing (Expr.paramE pPosA))
      ∧ (200, unsqueezeTrailing (Expr.paramE pPosA)) ∈ m'.uses := by
  obtain ⟨m', hm1, hm2, hm3⟩ := (position_ids_adapter mPosEx).2 pPos (by decide)
  exact ⟨m', hm1, hm3 200 (by decide)⟩

/-- C7: `beam_idx` handling: a name bound to a true Parameter is removed
(that Parameter is in no returned Parameter list, provided the sub-pass
context does not re-introduce it); a name bound to a non-Parameter node makes
the run return failure with the post-pass model unchanged; an absent name
causes no failure on its account — the outcome is exactly that of the
remaining finalization. -/
theorem beam_idx_cases (passes : Passes) (m0 mA mC mD : Model)
    (pIds : Param) (e : Expr) (ctx : PassCtx)
    (h1 : adaptInputIds m0 = some (mA, pIds))
    (h3 : adaptPositionIds (mA.replaceNode (Expr.paramE pIds)
            (unsqueezeTrailing (Expr.paramE pIds))) = some (mC, e))
    (h4 : passes mC initCtx
            (prev_max_seq_len (unsqueezeTrailing (Expr.paramE pIds))) e = (mD, ctx)) :
    (∀ p, mD.findInput "beam_idx" = some (GNode.param p) →
        p ∉ ctx.kv_parameters → p ∉ model_remaining_params →
        p ≠ max_context_len →
        ∀ mf b, runOnModel passes m0 = some (mf, b) → GNode.param p ∉ mf.inputs) ∧
    (∀ k ns, mD.findInput "beam_idx" = some (GNode.other k ns) →
        runOnModel passes m0 = some (mD, false)) ∧
    (has_parameter mD "beam_idx" = false →
        runOnModel passes m0 = finalizeAfterBeam ctx results_to_remove mD) := by
  refine ⟨?_, ?_, ?_⟩
  · intro p hf hkv hrem hmax mf b h
    rw [runOnModel_eq_finalize' passes h1 h3 h4] at h
    have hb : beamIdxStep mD = (mD.removeParameter p, true) := beamIdxStep_param hf
    cases b with
    | false =>
        rw [finalize_some_false h, hb]
        exact not_mem_removeParameter_self mD p
    | true =>
        rcases finalize_some_true h with ⟨q, _, _, hmf⟩
        rw [hmf, hb]
        exact not_mem_appendStage ctx results_to_remove _
          (not_mem_removeParameter (not_mem_removeParameter_self mD p))
          hkv hrem hmax
  · intro k ns hf
    rw [runOnModel_eq_finalize' passes h1 h3 h4,
        finalize_beam_false (beamIdxStep_other hf)]
  · intro hnp
    have hf : mD.findInput "beam_idx" = none := by
      rcases hfi : mD.findInput "beam_idx" with _ | g
      · rfl
      · rw [has_parameter, hfi] at hnp
        cases hnp
    rw [runOnModel_eq_finalize' passes h1 h3 h4,
        finalize_beam_true (beamIdxStep_none hf)]

/-- Witness for the C7 theorem: the removed `beam_idx` Parameter is absent
from the final Parameter list of a concrete successful run. -/
theorem beam_idx_cases_witness : GNode.param pBeam ∉ mExFinal.inputs :=
  (beam_idx_cases idPasses mEx mExA mExC mExC pInputA
      (unsqueezeTrailing (Expr.paramE position_ids_new)) initCtx
      (by decide) (by decide) rfl).1 pBeam (by decide) (by decide) (by decide)
    (by decide) mExFinal true (by decide)

/-- C8: the five scheduling-metadata Parameters are created with fixed
element types (`max_context_len` a 32-bit-integer scalar; `context_lens`,
`subsequence_begins`, `block_indices`, `block_indices_begins` 32-bit-integer
1-D dynamic vectors), each bound to its unique external name; and on every
successful run over a post-pass model and KV-context free of those names,
each of the five names occurs exactly once in the resulting Parameter list,
regardless of how many KV (per-layer) Parameters were accumulated. -/
theorem metadata_names_once (passes : Passes) (m0 mA mC mD : Model)
    (pIds : Param) (e : Expr) (ctx : PassCtx) (mf : Model)
    (h1 : adaptInputIds m0 = some (mA, pIds))
    (h3 : adaptPositionIds (mA.replaceNode (Expr.paramE pIds)
            (unsqueezeTrailing (Expr.paramE pIds))) = some (mC, e))
    (h4 : passes mC initCtx
            (prev_max_seq_len (unsqueezeTrailing (Expr.paramE pIds))) e = (mD, ctx))
    (hfresh : ∀ g ∈ mD.inputs, ∀ n ∈ metaNames, ¬ n ∈ GNode.names g)
    (hkv : ∀ q ∈ ctx.kv_parameters, ∀ n ∈ metaNames, ¬ n ∈ q.names)
    (h : runOnModel passes m0 = some (mf, true)) :
    (max_context_len.et = ElemType.i32 ∧ max_context_len.shape = []
      ∧ max_context_len.names = ["max_context_len"]
      ∧ model_remaining_params.map Param.et
          = [ElemType.i32, ElemType.i32, ElemType.i32, ElemType.i32]
      ∧ model_remaining_params.map Param.shape = [[-1], [-1], [-1], [-1]]
      ∧ model_remaining_params.map Param.names
          = [["context_lens"], ["subsequence_begins"], ["block_indices"],
             ["block_indices_begins"]])
    ∧ ∀ n ∈ metaNames, countName mf.inputs n = 1 := by
  refine ⟨by decide, ?_⟩
  intro n hn
  rw [runOnModel_eq_finalize' passes h1 h3 h4] at h
  rcases finalize_some_true h with ⟨p, _, _, hmf⟩
  rw [hmf, appendStage_inputs, countName_append, countName_append,
      countName_append]
  have hzeroA : countName
      ((ctx.parameters_to_remove.foldl (fun acc q => acc.removeParameter q)
        ((beamIdxStep mD).1.removeParameter p)).inputs) n = 0 := by
    apply countName_eq_zero
    intro g hg
    have hg1 := foldl_removeParameter_mem_inputs _ _ _ hg
    have hg2 := mem_inputs_removeParameter hg1
    have hg3 := beamIdxStep_mem_inputs hg2
    exact hfresh g hg3 n hn
  have hzeroB : countName (ctx.kv_parameters.map GNode.param) n = 0 := by
    apply countName_eq_zero
    intro g hg
    rcases List.mem_map.mp hg with ⟨q, hq, rfl⟩
    exact hkv q hq n hn
  rw [hzeroA, hzeroB]
  fin_cases hn <;> decide

/-- Witness for the C8 theorem: `context_lens` occurs exactly once in the
final Parameter list of a concrete successful run. -/
theorem metadata_names_once_witness :
    countName mExFinal.inputs "context_lens" = 1 :=
  (metadata_names_once idPasses mEx mExA mExC mExC pInputA
      (unsqueezeTrailing (Expr.paramE position_ids_new)) initCtx mExFinal
      (by decide) (by decide) rfl (by decide) (by decide) (by decide)).2
    "context_lens" (by decide)

/-- C10: when an input named `position_ids` exists but is bound to a
non-Parameter node, the downcast yields a null handle that the
shape-relaxation call immediately dereferences: unlike `beam_idx` and
`attention_mask` there is no boolean-failure branch for `position_ids`, so
the run crashes (modelled `none`) for every sub-pass pipeline — totality of
the transformation requires the precondition that an existing `position_ids`
input is a true Parameter. -/
theorem position_ids_nonparam_crashes (passes : Passes) (m0 mA : Model)
    (pIds : Param) (k : Nat) (ns : List String)
    (h1 : adaptInputIds m0 = some (mA, pIds))
    (hf : mA.findInput "position_ids" = some (GNode.other k ns)) :
    runOnModel passes m0 = none := by
  apply runOnModel_none_of_pos passes h1
  apply adaptPositionIds_other
  rw [replaceNode_findInput]
  exact hf

/-- Witness for the C10 theorem. -/
theorem position_ids_nonparam_crashes_witness :
    runOnModel idPasses mPosBad = none :=
  position_ids_nonparam_crashes idPasses mPosBad mPosBadA pInputA 60
    ["position_ids"] (by decide) (by decide)
